import Mathlib

/-!
Verification development for the possu query-building library.

The definitions below are a shallow embedding of the TypeScript sources:

* `src/sql.ts` — the `sql` tagged-template query composer (`sql`, `sqlInner`,
  `appendSqlValuesList`, `appendSqlValuesListItem`, `sql.values`),
* `src/SqlQuery.ts` — the composed-query value object,
* `src/queries.ts` — the execution entry points (`query`, `queryOne`,
  `queryMaybeOne`, `execute`, `executeOne`, `executeMaybeOne`, `send`),
* `src/util.ts` — `mapField`,
* `src/transaction.ts` — `withTransaction`, `performTransaction`,
  `getMaxRetries`, `isRetryableError`, `withSavepoint`.

JavaScript dynamic values are modelled by the inductive type `JsVal`;
machine-level numbers are modelled as `Int` (all numbers occurring in the
library are small integers).  Asynchronous functions that may throw are
modelled as `Except`-valued functions, and interactions with the external
`pg` collaborator are modelled by explicit statement/call logs.
-/

namespace Possu

/-- A JavaScript runtime value, as far as the library inspects them:
`undefined`, `null`, numbers, strings, booleans, plain objects
(association lists of named fields) and arrays. -/
inductive JsVal : Type where
  | undef : JsVal
  | null : JsVal
  | num : Int → JsVal
  | str : String → JsVal
  | bool : Bool → JsVal
  | obj : List (String × JsVal) → JsVal
  | arr : List JsVal → JsVal

/-- JavaScript property access `object[key]` on a plain object: the value of
the first field with the given name, `undefined` when the key is absent or
the value is not an object. -/
def lookupField (object : List (String × JsVal)) (key : String) : JsVal :=
  (object.lookup key).getD JsVal.undef

/-- An interpolated value accepted by the `sql` tagged template
(src/sql.ts): a plain value bound as a parameter, a pre-escaped
`Identifier`, a `ValuesList` (records plus keys, as validated by
`sql.values`), or a nested `SqlQuery`.  A nested query is represented by its
replay state — the original template parts and original interpolated values
that the source stores behind the `possu` symbol and that `sqlInner` re-expands. -/
inductive Value : Type where
  | raw : JsVal → Value
  | ident : String → Value
  | vlist : List (List (String × JsVal)) → List String → Value
  | subquery : List String → List Value → Value

/-- The composed query artifact of src/SqlQuery.ts: the final `text` and
`values` together with the replay state (`parts`, `originalValues`)
retained for re-expansion when the query is nested. -/
structure SqlQuery : Type where
  text : String
  values : List JsVal
  parts : List String
  originalValues : List Value

/-- The text pushed by `getPlaceholder` in src/sql.ts: a dollar sign followed
by the decimal rendering of the current placeholder index. -/
def phString (n : Nat) : String := "$" ++ Nat.repr n

/-- The inner loop of `appendSqlValuesListItem` (src/sql.ts, lines 191-195):
for each key, push a fresh placeholder (with `", "` between keys) and push
`object[key]` onto the output values.  Returns the pushed text pieces, the
pushed values, and the next placeholder index. -/
def valuesListItemLoop (object : List (String × JsVal)) :
    List String → Nat → List String × List JsVal × Nat
  | [], idx => ([], [], idx)
  | [k], idx => ([phString idx], [lookupField object k], idx + 1)
  | k :: k2 :: keys, idx =>
    let r := valuesListItemLoop object (k2 :: keys) (idx + 1)
    (phString idx :: ", " :: r.1, lookupField object k :: r.2.1, r.2.2)

/-- `appendSqlValuesListItem` (src/sql.ts): wraps one record's placeholders
in parentheses. -/
def appendSqlValuesListItem (object : List (String × JsVal))
    (keys : List String) (idx : Nat) : List String × List JsVal × Nat :=
  let r := valuesListItemLoop object keys idx
  ("(" :: r.1 ++ [")"], r.2.1, r.2.2)

/-- The loop of `appendSqlValuesList` (src/sql.ts, lines 173-176): one item
per record, with `", "` between records. -/
def valuesListLoop (keys : List String) :
    List (List (String × JsVal)) → Nat → List String × List JsVal × Nat
  | [], idx => ([], [], idx)
  | [o], idx => appendSqlValuesListItem o keys idx
  | o :: o2 :: objs, idx =>
    let w := appendSqlValuesListItem o keys idx
    let r := valuesListLoop keys (o2 :: objs) w.2.2
    (w.1 ++ ", " :: r.1, w.2.1 ++ r.2.1, r.2.2)

/-- `appendSqlValuesList` (src/sql.ts): pushes `"VALUES "` followed by the
comma-separated record groups. -/
def appendSqlValuesList (objects : List (List (String × JsVal)))
    (keys : List String) (idx : Nat) : List String × List JsVal × Nat :=
  let r := valuesListLoop keys objects idx
  ("VALUES " :: r.1, r.2.1, r.2.2)

theorem sizeOf_tail_le (l : List String) : sizeOf l.tail ≤ sizeOf l := by
  cases l with
  | nil => exact Nat.le_refl _
  | cons a l => simp

/-- The loop body of `sqlInner` (src/sql.ts, lines 107-126), written as a
recursion over the remaining template parts (`parts[1..]`) paired with the
remaining interpolated values.  Mirrors the JavaScript loop exactly:

* the loop is bounded by the number of parts, so extra values are ignored;
* when the values run out before the parts, `originalValues[i-1]` is
  `undefined` in JavaScript, which falls into the plain-value branch
  (push a placeholder, push `undefined`);
* a nested `SqlQuery` is re-expanded in place from its replay state,
  continuing the same placeholder counter (the recursive `sqlInner` call
  in the source is inlined here: `parts[0]`, i.e. `ps.headD ""`, then the
  loop over the nested template's tail);
* an `Identifier` splices its text, a `ValuesList` expands via
  `appendSqlValuesList`, any other value allocates a fresh placeholder.

Returns the pushed text pieces, the pushed values, and the next placeholder
index. -/
def sqlLoop : List String → List Value → Nat → List String × List JsVal × Nat
  | [], _, idx => ([], [], idx)
  | part :: parts, [], idx =>
    let r := sqlLoop parts [] (idx + 1)
    (phString idx :: part :: r.1, JsVal.undef :: r.2.1, r.2.2)
  | part :: parts, Value.raw v :: vals, idx =>
    let r := sqlLoop parts vals (idx + 1)
    (phString idx :: part :: r.1, v :: r.2.1, r.2.2)
  | part :: parts, Value.ident s :: vals, idx =>
    let r := sqlLoop parts vals idx
    (s :: part :: r.1, r.2.1, r.2.2)
  | part :: parts, Value.vlist objs keys :: vals, idx =>
    let w := appendSqlValuesList objs keys idx
    let r := sqlLoop parts vals w.2.2
    (w.1 ++ part :: r.1, w.2.1 ++ r.2.1, r.2.2)
  | part :: parts, Value.subquery ps vs :: vals, idx =>
    let inner := sqlLoop ps.tail vs idx
    let r := sqlLoop parts vals inner.2.2
    ((ps.headD "" :: inner.1) ++ part :: r.1, inner.2.1 ++ r.2.1, r.2.2)
  termination_by parts vals _ => sizeOf parts + sizeOf vals
  decreasing_by
  all_goals first
  | (have h := sizeOf_tail_le ps; simp; omega)
  | (simp; omega)
  | simp

/-- `sqlInner` (src/sql.ts): push `parts[0]` (the empty string when the
parts array is empty, as `Array.prototype.join` renders `undefined`), then
run the loop over the remaining parts and the values. -/
def sqlInner (parts : List String) (originalValues : List Value) (idx : Nat) :
    List String × List JsVal × Nat :=
  let r := sqlLoop parts.tail originalValues idx
  (parts.headD "" :: r.1, r.2.1, r.2.2)

/-- The `sql` tagged template (src/sql.ts, lines 80-95): run `sqlInner` with
the placeholder counter starting at 1 and join the text pieces. -/
def sql (parts : List String) (originalValues : List Value) : SqlQuery :=
  let r := sqlInner parts originalValues 1
  ⟨String.join r.1, r.2.1, parts, originalValues⟩

/-- The model of `ValuesList` construction by `sql.values` (src/sql.ts,
lines 140-159).  The array-of-objects check is built into the
representation; the emptiness checks and the key inference from the first
record are modelled exactly.  `TypeError` versus `Error` is not
distinguished: both are construction-time failures. -/
def sqlValues (objects : List (List (String × JsVal))) (keys : List String) :
    Except String (List (List (String × JsVal)) × List String) :=
  if objects.isEmpty then
    Except.error "The first argument to `sql.values` must be non-empty"
  else
    let keys := if keys.isEmpty then (objects.headD []).map Prod.fst else keys
    if keys.isEmpty then
      Except.error "The first object given to `sql.values` must not be empty"
    else
      Except.ok (objects, keys)

example :
    (sql ["SELECT * FROM pet WHERE id = ", ""] [Value.raw (JsVal.num 1)]).text
      = "SELECT * FROM pet WHERE id = $1" := by
  simp [sql, sqlInner, sqlLoop, phString, String.join]
  rfl

/-! ### Placeholder occurrences in query text

`scanPlaceholders` extracts, left to right, every maximal token of the form
a dollar sign followed by a run of decimal digits from a string.  These are
the positional-placeholder occurrences of the composed query text. -/

/-- Scanner state machine: `tok = some t` means a placeholder token `t` is
currently being read. -/
def scanAux : Option (List Char) → List Char → List String
  | none, [] => []
  | some tok, [] => [tok.asString]
  | none, c :: cs => if c = '$' then scanAux (some [c]) cs else scanAux none cs
  | some tok, c :: cs =>
    if c.isDigit then scanAux (some (tok ++ [c])) cs
    else tok.asString ::
      (if c = '$' then scanAux (some [c]) cs else scanAux none cs)

/-- All placeholder tokens (a `$` followed by the maximal following digit
run) occurring in a string, in order of appearance. -/
def scanPlaceholders (s : String) : List String := scanAux none s.data

/-- Whether a character sequence does not start with a decimal digit (so
that prepending it to previously scanned text cannot extend a placeholder
token). -/
def noDigitHead : List Char → Bool
  | [] => true
  | c :: _ => !c.isDigit

/-- A literal text fragment is clean when it contains no dollar sign and
does not start with a digit; splicing clean fragments can neither create
nor extend placeholder tokens. -/
def cleanStr (s : String) : Bool :=
  s.data.all (fun c => c != '$') && noDigitHead s.data

mutual

/-- Cleanliness of an interpolated value: identifier texts and every
literal segment of a nested query must be clean. -/
def cleanValue : Value → Bool
  | Value.raw _ => true
  | Value.ident s => cleanStr s
  | Value.vlist _ _ => true
  | Value.subquery ps vs => ps.all cleanStr && cleanValues vs

/-- Cleanliness of a list of interpolated values. -/
def cleanValues : List Value → Bool
  | [] => true
  | v :: vs => cleanValue v && cleanValues vs

end

/-- The character sequence of a list of text pieces, in push order. -/
def charsOf (pieces : List String) : List Char :=
  (pieces.map String.data).flatten

theorem scanAux_cons_of_ne (c : Char) (cs : List Char) (h : c ≠ '$') :
    scanAux none (c :: cs) = scanAux none cs := by
  simp [scanAux, h]

theorem scanAux_clean_append (l cs : List Char) (h : ∀ c ∈ l, c ≠ '$') :
    scanAux none (l ++ cs) = scanAux none cs := by
  induction l with
  | nil => rfl
  | cons c l ih =>
    simp only [List.cons_append]
    rw [scanAux_cons_of_ne c _ (h c (List.mem_cons_self c l))]
    exact ih fun x hx => h x (List.mem_cons_of_mem c hx)

theorem scanAux_digits_append (ds : List Char) (tok cs : List Char)
    (h : ∀ c ∈ ds, c.isDigit = true) :
    scanAux (some tok) (ds ++ cs) = scanAux (some (tok ++ ds)) cs := by
  induction ds generalizing tok with
  | nil => simp
  | cons d ds ih =>
    simp only [List.cons_append, scanAux, h d (List.mem_cons_self d ds),
      if_true, List.append_eq]
    rw [ih (tok ++ [d]) fun x hx => h x (List.mem_cons_of_mem d hx)]
    simp

theorem scanAux_stop (tok cs : List Char) (h : noDigitHead cs = true) :
    scanAux (some tok) cs = tok.asString :: scanAux none cs := by
  cases cs with
  | nil => rfl
  | cons c cs =>
    simp only [noDigitHead, Bool.not_eq_eq_eq_not, Bool.not_true] at h
    simp only [scanAux, h, if_neg (by simp [h] : ¬c.isDigit = true)]
    by_cases hc : c = '$' <;> simp [hc]

theorem scanAux_placeholder (ds cs : List Char)
    (hd : ∀ c ∈ ds, c.isDigit = true) (hcs : noDigitHead cs = true) :
    scanAux none (('$' :: ds) ++ cs)
      = ('$' :: ds).asString :: scanAux none cs := by
  simp only [List.cons_append, scanAux, if_pos rfl, List.append_eq]
  rw [scanAux_digits_append ds ['$'] cs hd, scanAux_stop _ _ hcs]
  simp

/-! Decimal renderings of naturals consist of digits. -/

theorem digitChar_isDigit (m : Nat) (h : m < 10) :
    (Nat.digitChar m).isDigit = true := by
  interval_cases m <;> decide

theorem toDigitsCore_digits (fuel : Nat) :
    ∀ (n : Nat) (acc : List Char), (∀ c ∈ acc, c.isDigit = true) →
      ∀ c ∈ Nat.toDigitsCore 10 fuel n acc, c.isDigit = true := by
  induction fuel with
  | zero => intro n acc hacc c hc; exact hacc c hc
  | succ fuel ih =>
    intro n acc hacc c hc
    simp only [Nat.toDigitsCore] at hc
    split at hc
    · rcases List.mem_cons.1 hc with h | h
      · subst h; exact digitChar_isDigit _ (Nat.mod_lt _ (by decide))
      · exact hacc c h
    · refine ih _ _ ?_ c hc
      intro x hx
      rcases List.mem_cons.1 hx with h | h
      · subst h; exact digitChar_isDigit _ (Nat.mod_lt _ (by decide))
      · exact hacc x h

theorem repr_digits (n : Nat) : ∀ c ∈ (Nat.repr n).data, c.isDigit = true := by
  intro c hc
  have : (Nat.repr n).data = Nat.toDigits 10 n := by
    simp [Nat.repr, List.asString]
  rw [this] at hc
  exact toDigitsCore_digits (n + 1) n [] (by simp) c hc

theorem phString_data (n : Nat) :
    (phString n).data = '$' :: (Nat.repr n).data := by
  simp [phString, String.data_append]

theorem noDigitHead_append (a b : List Char) (ha : noDigitHead a = true)
    (hb : noDigitHead b = true) : noDigitHead (a ++ b) = true := by
  cases a with
  | nil => exact hb
  | cons c cs => simpa [noDigitHead] using ha

theorem charsOf_append (t1 t2 : List String) :
    charsOf (t1 ++ t2) = charsOf t1 ++ charsOf t2 := by
  simp [charsOf]

theorem charsOf_cons (s : String) (t : List String) :
    charsOf (s :: t) = s.data ++ charsOf t := by
  simp [charsOf]

theorem join_data (l : List String) : (String.join l).data = charsOf l := by
  have key : ∀ (l : List String) (a : String),
      (l.foldl (· ++ ·) a).data = a.data ++ charsOf l := by
    intro l
    induction l with
    | nil => intro a; simp [charsOf]
    | cons s t ih =>
      intro a
      simp only [List.foldl_cons, ih, charsOf_cons, String.data_append]
      simp
  rw [String.join, key l ""]
  rfl

example :
    (sql ["SELECT * FROM pet WHERE id = ", ""] [Value.raw (JsVal.num 1)]).values
      = [JsVal.num 1] := by
  simp [sql, sqlInner, sqlLoop]

/-- Scanning specification of a sequence of text pieces: the pieces start
with a non-digit character (if at all), and scanning their characters
followed by any non-digit-headed suffix yields exactly the placeholder
tokens for the given index list, then the scan of the suffix. -/
def ScanSpec (pieces : List String) (ns : List Nat) : Prop :=
  noDigitHead (charsOf pieces) = true ∧
  ∀ suffix : List Char, noDigitHead suffix = true →
    scanAux none (charsOf pieces ++ suffix)
      = ns.map phString ++ scanAux none suffix

theorem ScanSpec.nil : ScanSpec [] [] := by
  refine ⟨rfl, fun suffix _ => ?_⟩
  simp [charsOf]

theorem ScanSpec.append {t1 t2 : List String} {ns1 ns2 : List Nat}
    (h1 : ScanSpec t1 ns1) (h2 : ScanSpec t2 ns2) :
    ScanSpec (t1 ++ t2) (ns1 ++ ns2) := by
  obtain ⟨hh1, hs1⟩ := h1
  obtain ⟨hh2, hs2⟩ := h2
  constructor
  · rw [charsOf_append]; exact noDigitHead_append _ _ hh1 hh2
  · intro suffix hsuf
    rw [charsOf_append, List.append_assoc,
      hs1 _ (noDigitHead_append _ _ hh2 hsuf), hs2 _ hsuf]
    simp

theorem ScanSpec.clean {s : String} (h : cleanStr s = true) :
    ScanSpec [s] [] := by
  rw [cleanStr, Bool.and_eq_true] at h
  have hdol : ∀ c ∈ s.data, c ≠ '$' := by
    intro c hc
    simpa using List.all_eq_true.1 h.1 c hc
  have hnd : noDigitHead s.data = true := h.2
  constructor
  · simpa [charsOf] using hnd
  · intro suffix hsuf
    simp only [charsOf, List.map_cons, List.map_nil, List.flatten,
      List.append_nil]
    rw [scanAux_clean_append _ _ hdol]
    simp

theorem ScanSpec.placeholder (n : Nat) : ScanSpec [phString n] [n] := by
  have hdata : charsOf [phString n] = '$' :: (Nat.repr n).data := by
    simp [charsOf, phString_data]
  constructor
  · rw [hdata]; rfl
  · intro suffix hsuf
    have htok : ('$' :: (Nat.repr n).data).asString = phString n := by
      apply String.ext
      simp [List.asString, phString_data]
    rw [hdata, scanAux_placeholder _ _ (repr_digits n) hsuf, htok]
    simp

theorem cleanStr_empty : cleanStr "" = true := rfl

theorem cleanStr_comma : cleanStr ", " = true := rfl

theorem cleanStr_lparen : cleanStr "(" = true := rfl

theorem cleanStr_rparen : cleanStr ")" = true := rfl

theorem cleanStr_valuesKeyword : cleanStr "VALUES " = true := rfl

theorem valuesListItemLoop_spec (object : List (String × JsVal)) :
    ∀ (keys : List String) (idx : Nat),
      (valuesListItemLoop object keys idx).2.2 = idx + keys.length ∧
      (valuesListItemLoop object keys idx).2.1
        = keys.map (fun k => lookupField object k) ∧
      ScanSpec (valuesListItemLoop object keys idx).1
        (List.range' idx keys.length) := by
  intro keys
  induction keys with
  | nil => exact fun idx => ⟨rfl, rfl, ScanSpec.nil⟩
  | cons k tail ih =>
    intro idx
    cases tail with
    | nil =>
      refine ⟨rfl, rfl, ?_⟩
      simpa using ScanSpec.placeholder idx
    | cons k2 rest =>
      obtain ⟨h1, h2, h3⟩ := ih (idx + 1)
      refine ⟨?_, ?_, ?_⟩
      · simp only [valuesListItemLoop, h1]
        simp; omega
      · simp only [valuesListItemLoop, h2]
        simp
      · have := (ScanSpec.placeholder idx).append
          ((ScanSpec.clean cleanStr_comma).append h3)
        simp only [List.singleton_append, List.nil_append] at this
        simpa [valuesListItemLoop, List.range'_succ] using this

theorem appendSqlValuesListItem_spec (object : List (String × JsVal))
    (keys : List String) (idx : Nat) :
    (appendSqlValuesListItem object keys idx).2.2 = idx + keys.length ∧
    (appendSqlValuesListItem object keys idx).2.1
      = keys.map (fun k => lookupField object k) ∧
    ScanSpec (appendSqlValuesListItem object keys idx).1
      (List.range' idx keys.length) := by
  obtain ⟨h1, h2, h3⟩ := valuesListItemLoop_spec object keys idx
  refine ⟨h1, h2, ?_⟩
  have := (ScanSpec.clean cleanStr_lparen).append
    (h3.append (ScanSpec.clean cleanStr_rparen))
  simpa [appendSqlValuesListItem] using this

theorem valuesListLoop_spec (keys : List String) :
    ∀ (objs : List (List (String × JsVal))) (idx : Nat),
      (valuesListLoop keys objs idx).2.2 = idx + objs.length * keys.length ∧
      (valuesListLoop keys objs idx).2.1
        = objs.flatMap (fun o => keys.map (fun k => lookupField o k)) ∧
      ScanSpec (valuesListLoop keys objs idx).1
        (List.range' idx (objs.length * keys.length)) := by
  intro objs
  induction objs with
  | nil => exact fun idx => ⟨by simp [valuesListLoop], by simp [valuesListLoop],
      by simpa using ScanSpec.nil⟩
  | cons o tail ih =>
    intro idx
    cases tail with
    | nil =>
      obtain ⟨h1, h2, h3⟩ := appendSqlValuesListItem_spec o keys idx
      exact ⟨by simpa [valuesListLoop] using h1,
        by simpa [valuesListLoop] using h2,
        by simpa [valuesListLoop] using h3⟩
    | cons o2 rest =>
      obtain ⟨w1, w2, w3⟩ := appendSqlValuesListItem_spec o keys idx
      obtain ⟨h1, h2, h3⟩ :=
        ih ((appendSqlValuesListItem o keys idx).2.2)
      rw [w1] at h1 h2 h3
      refine ⟨?_, ?_, ?_⟩
      · simp only [valuesListLoop, w1, h1]
        simp only [List.length_cons]
        ring
      · simp only [valuesListLoop, w1, h2, w2]
        simp
      · have hc := w3.append ((ScanSpec.clean cleanStr_comma).append h3)
        simp only [List.nil_append] at hc
        have hrange : List.range' idx keys.length
              ++ List.range' (idx + keys.length)
                  ((o2 :: rest).length * keys.length)
            = List.range' idx ((o :: o2 :: rest).length * keys.length) := by
          rw [List.range'_append_1]
          congr 1
          simp only [List.length_cons]
          ring
        rw [hrange] at hc
        simp only [valuesListLoop, w1]
        simpa using hc

theorem appendSqlValuesList_spec (objs : List (List (String × JsVal)))
    (keys : List String) (idx : Nat) :
    (appendSqlValuesList objs keys idx).2.2
        = idx + objs.length * keys.length ∧
    (appendSqlValuesList objs keys idx).2.1
        = objs.flatMap (fun o => keys.map (fun k => lookupField o k)) ∧
    ScanSpec (appendSqlValuesList objs keys idx).1
      (List.range' idx (objs.length * keys.length)) := by
  obtain ⟨h1, h2, h3⟩ := valuesListLoop_spec keys objs idx
  refine ⟨h1, h2, ?_⟩
  have := (ScanSpec.clean cleanStr_valuesKeyword).append h3
  simpa [appendSqlValuesList] using this

theorem all_tail {p : String → Bool} (l : List String) (h : l.all p = true) :
    l.tail.all p = true := by
  cases l with
  | nil => exact h
  | cons a l =>
    rw [List.all_cons, Bool.and_eq_true] at h
    exact h.2

theorem cleanStr_headD (l : List String) (h : l.all cleanStr = true) :
    cleanStr (l.headD "") = true := by
  cases l with
  | nil => rfl
  | cons a l =>
    rw [List.all_cons, Bool.and_eq_true] at h
    exact h.1

theorem flat_values_length (objs : List (List (String × JsVal)))
    (keys : List String) :
    (objs.flatMap fun o => keys.map fun k => lookupField o k).length
      = objs.length * keys.length := by
  induction objs with
  | nil => simp
  | cons o t ih =>
    simp only [List.flatMap_cons, List.length_append, List.length_map,
      List.length_cons, ih]
    ring

/-- Main invariant of the composer loop: under clean literal segments, the
loop starting at placeholder index `idx` pushes one value per allocated
placeholder, returns `idx + number of pushed values` as the next index, and
its text pieces contain exactly the placeholder tokens
`idx, idx+1, ...`, in order. -/
theorem sqlLoop_spec (parts : List String) (vals : List Value) (idx : Nat) :
    parts.all cleanStr = true → cleanValues vals = true →
    (sqlLoop parts vals idx).2.2 = idx + (sqlLoop parts vals idx).2.1.length ∧
    ScanSpec (sqlLoop parts vals idx).1
      (List.range' idx (sqlLoop parts vals idx).2.1.length) := by
  induction parts, vals, idx using sqlLoop.induct with
  | case1 vals idx =>
    intro _ _
    exact ⟨by simp [sqlLoop], by simpa [sqlLoop] using ScanSpec.nil⟩
  | case2 part parts idx ih =>
    intro hp _
    rw [List.all_cons, Bool.and_eq_true] at hp
    obtain ⟨h1, h2⟩ := ih hp.2 rfl
    refine ⟨?_, ?_⟩
    · simp only [sqlLoop, List.length_cons, h1]
      omega
    · have hsc := (ScanSpec.placeholder idx).append
        ((ScanSpec.clean hp.1).append h2)
      simp only [sqlLoop, List.length_cons, List.range'_succ]
      simpa using hsc
  | case3 part parts v vals idx ih =>
    intro hp hv
    rw [List.all_cons, Bool.and_eq_true] at hp
    rw [cleanValues, Bool.and_eq_true] at hv
    obtain ⟨h1, h2⟩ := ih hp.2 hv.2
    refine ⟨?_, ?_⟩
    · simp only [sqlLoop, List.length_cons, h1]
      omega
    · have hsc := (ScanSpec.placeholder idx).append
        ((ScanSpec.clean hp.1).append h2)
      simp only [sqlLoop, List.length_cons, List.range'_succ]
      simpa using hsc
  | case4 part parts s vals idx ih =>
    intro hp hv
    rw [List.all_cons, Bool.and_eq_true] at hp
    rw [cleanValues, Bool.and_eq_true] at hv
    have hs : cleanStr s = true := by
      have := hv.1
      rwa [cleanValue] at this
    obtain ⟨h1, h2⟩ := ih hp.2 hv.2
    refine ⟨?_, ?_⟩
    · simp only [sqlLoop]
      exact h1
    · have hsc := (ScanSpec.clean hs).append ((ScanSpec.clean hp.1).append h2)
      simp only [sqlLoop]
      simpa using hsc
  | case5 part parts objs keys vals idx w ih =>
    intro hp hv
    have hw : w = appendSqlValuesList objs keys idx := rfl
    rw [List.all_cons, Bool.and_eq_true] at hp
    rw [cleanValues, Bool.and_eq_true] at hv
    obtain ⟨w1, w2, w3⟩ := appendSqlValuesList_spec objs keys idx
    have hlen : (appendSqlValuesList objs keys idx).2.1.length
        = objs.length * keys.length := by
      rw [w2, flat_values_length]
    obtain ⟨h1, h2⟩ := ih hp.2 hv.2
    rw [hw, w1] at h1 h2
    refine ⟨?_, ?_⟩
    · simp only [sqlLoop, w1, h1, List.length_append, hlen]
      omega
    · have hc := w3.append ((ScanSpec.clean hp.1).append h2)
      simp only [List.nil_append] at hc
      rw [List.range'_append_1] at hc
      simp only [sqlLoop, w1, List.length_append, hlen]
      simpa [Nat.add_comm] using hc
  | case6 part parts ps vs vals idx inner ih1 ih2 =>
    intro hp hv
    have hinner : inner = sqlLoop ps.tail vs idx := rfl
    rw [List.all_cons, Bool.and_eq_true] at hp
    rw [cleanValues, Bool.and_eq_true] at hv
    have hsub := hv.1
    rw [cleanValue, Bool.and_eq_true] at hsub
    obtain ⟨i1, i2⟩ := ih1 (all_tail ps hsub.1) hsub.2
    obtain ⟨r1, r2⟩ := ih2 hp.2 hv.2
    rw [hinner, i1] at r1 r2
    refine ⟨?_, ?_⟩
    · simp only [sqlLoop, i1, r1, List.length_append]
      omega
    · have hsc := (ScanSpec.clean (cleanStr_headD ps hsub.1)).append
        (i2.append ((ScanSpec.clean hp.1).append r2))
      simp only [List.nil_append] at hsc
      rw [List.range'_append_1] at hsc
      simp only [sqlLoop, i1, List.length_append]
      simpa [Nat.add_comm] using hsc

/-- C1 counterexample: the composed query `sql‵SELECT ${7}0‵` has text
`SELECT $10` — the literal segment `0` merges with the generated
placeholder `$1` — so the placeholder occurrences of the text are not
`$1 .. $N` for `N = len(values) = 1`. -/
theorem C1_counterexample :
    scanPlaceholders (sql ["SELECT ", "0"] [Value.raw (JsVal.num 7)]).text
      ≠ (List.range' 1
          (sql ["SELECT ", "0"] [Value.raw (JsVal.num 7)]).values.length).map
          phString := by
  have ht : (sql ["SELECT ", "0"] [Value.raw (JsVal.num 7)]).text
      = "SELECT $10" := by
    simp [sql, sqlInner, sqlLoop, phString, String.join]
    rfl
  have hv : (sql ["SELECT ", "0"] [Value.raw (JsVal.num 7)]).values.length
      = 1 := by
    simp [sql, sqlInner, sqlLoop]
  rw [ht, hv]
  decide

/-- C1 (amended): for every query composed by the `sql` tagged-template
builder — with arbitrary nesting of queries, identifiers and values
lists — whose literal segments and identifier texts contain no dollar sign
and do not begin with a decimal digit, the placeholder tokens occurring in
the resulting query text are exactly `$1, ..., $N` for `N = len(values)`,
in that order: each placeholder number `1..N` appears exactly once, in text
order, with no gaps or repeats. -/
theorem C1_amended (parts : List String) (vals : List Value)
    (h1 : parts.all cleanStr = true) (h2 : cleanValues vals = true) :
    scanPlaceholders (sql parts vals).text
      = (List.range' 1 (sql parts vals).values.length).map phString := by
  have hfull := (ScanSpec.clean (cleanStr_headD parts h1)).append
    (sqlLoop_spec parts.tail vals 1 (all_tail parts h1) h2).2
  simp only [List.nil_append] at hfull
  have hscan := hfull.2 [] rfl
  simp only [List.append_nil] at hscan
  have hnil : scanAux none ([] : List Char) = [] := rfl
  rw [hnil, List.append_nil] at hscan
  show scanAux none (sql parts vals).text.data = _
  rw [show (sql parts vals).text
      = String.join (parts.headD "" :: (sqlLoop parts.tail vals 1).1)
      from rfl, join_data]
  rw [show (sql parts vals).values = (sqlLoop parts.tail vals 1).2.1 from rfl]
  rw [show (parts.headD "" :: (sqlLoop parts.tail vals 1).1)
      = [parts.headD ""] ++ (sqlLoop parts.tail vals 1).1 from rfl]
  exact hscan

/-- C1 witness: the amended theorem applied at a concrete clean template
that exercises a plain value, a nested query and a values list. -/
theorem C1_witness :
    scanPlaceholders (sql
        ["SELECT * FROM pet WHERE x = ", " AND exists(", ") AND y IN ", ""]
        [Value.raw (JsVal.num 5),
         Value.subquery ["SELECT a FROM t WHERE b = ", ""]
           [Value.raw (JsVal.str "q")],
         Value.vlist [[("a", JsVal.num 1)], [("a", JsVal.num 2)]] ["a"]]).text
      = (List.range' 1 (sql
        ["SELECT * FROM pet WHERE x = ", " AND exists(", ") AND y IN ", ""]
        [Value.raw (JsVal.num 5),
         Value.subquery ["SELECT a FROM t WHERE b = ", ""]
           [Value.raw (JsVal.str "q")],
         Value.vlist [[("a", JsVal.num 1)], [("a", JsVal.num 2)]] ["a"]]).values.length).map
          phString :=
  C1_amended _ _ (by decide) (by
    simp [cleanValues, cleanValue]
    decide)

theorem join_cons (s : String) (t : List String) :
    String.join (s :: t) = s ++ String.join t := by
  apply String.ext
  rw [join_data, String.data_append, join_data, charsOf_cons]

theorem join_append (a b : List String) :
    String.join (a ++ b) = String.join a ++ String.join b := by
  apply String.ext
  rw [join_data, String.data_append, join_data, join_data, charsOf_append]

/-- The values pushed by the composer loop do not depend on the starting
placeholder index (only the placeholder tokens in the text do). -/
theorem sqlLoop_values_irrel (parts : List String) (vals : List Value)
    (i : Nat) : ∀ j : Nat,
    (sqlLoop parts vals i).2.1 = (sqlLoop parts vals j).2.1 := by
  induction parts, vals, i using sqlLoop.induct with
  | case1 vals idx => intro j; simp [sqlLoop]
  | case2 part parts idx ih =>
    intro j
    simp only [sqlLoop]
    rw [ih (j + 1)]
  | case3 part parts v vals idx ih =>
    intro j
    simp only [sqlLoop]
    rw [ih (j + 1)]
  | case4 part parts s vals idx ih =>
    intro j
    simp only [sqlLoop]
    rw [ih j]
  | case5 part parts objs keys vals idx w ih =>
    intro j
    obtain ⟨-, wv1, -⟩ := appendSqlValuesList_spec objs keys idx
    obtain ⟨-, wv2, -⟩ := appendSqlValuesList_spec objs keys j
    simp only [sqlLoop, wv1, wv2]
    rw [ih ((appendSqlValuesList objs keys j).2.2)]
  | case6 part parts ps vs vals idx inner ih1 ih2 =>
    intro j
    simp only [sqlLoop]
    rw [ih1 j, ih2 ((sqlLoop ps.tail vs j).2.2)]

/-- Splitting the composer loop at a site boundary: when the first segment
pairs its parts and values exactly, the loop distributes over the split,
threading the placeholder counter left to right. -/
theorem sqlLoop_append (ps1 : List String) (vs1 : List Value)
    (ps2 : List String) (vs2 : List Value) (idx : Nat)
    (h : ps1.length = vs1.length) :
    sqlLoop (ps1 ++ ps2) (vs1 ++ vs2) idx
      = ((sqlLoop ps1 vs1 idx).1
            ++ (sqlLoop ps2 vs2 (sqlLoop ps1 vs1 idx).2.2).1,
         (sqlLoop ps1 vs1 idx).2.1
            ++ (sqlLoop ps2 vs2 (sqlLoop ps1 vs1 idx).2.2).2.1,
         (sqlLoop ps2 vs2 (sqlLoop ps1 vs1 idx).2.2).2.2) := by
  induction ps1 generalizing vs1 idx with
  | nil =>
    have : vs1 = [] := by
      cases vs1 with
      | nil => rfl
      | cons v t => simp at h
    subst this
    simp [sqlLoop]
  | cons p t ih =>
    cases vs1 with
    | nil => simp at h
    | cons v vt =>
      have ht : t.length = vt.length := by simpa using h
      cases v with
      | raw x =>
        simp only [List.cons_append, sqlLoop, ih vt (idx + 1) ht]
      | ident s =>
        simp only [List.cons_append, sqlLoop, ih vt idx ht]
      | vlist objs keys =>
        simp only [List.cons_append, sqlLoop,
          ih vt ((appendSqlValuesList objs keys idx).2.2) ht]
        simp
      | subquery ps vs =>
        simp only [List.cons_append, sqlLoop,
          ih vt ((sqlLoop ps.tail vs idx).2.2) ht]
        simp

/-- C2 counterexample: splicing `inner = sql‵X ${2} Y‵` (text `X $1 Y`)
into `sql‵A ${1} B ${inner} C‵` yields text `A $1 B X $2 Y C`: the nested
query's placeholders are renumbered to continue the outer counter, so the
composed text is NOT the outer text with `inner.text` textually
substituted at the splice site (which would read `A $1 B X $1 Y C`).
The values interleaving, by contrast, does hold at this input. -/
theorem C2_counterexample :
    (sql ["A ", " B ", " C"]
        [Value.raw (JsVal.num 1),
         Value.subquery ["X ", " Y"] [Value.raw (JsVal.num 2)]]).text
      = "A $1 B X $2 Y C" ∧
    (sql ["X ", " Y"] [Value.raw (JsVal.num 2)]).text = "X $1 Y" ∧
    (sql ["A ", " B ", " C"]
        [Value.raw (JsVal.num 1),
         Value.subquery ["X ", " Y"] [Value.raw (JsVal.num 2)]]).text
      ≠ "A $1 B " ++ (sql ["X ", " Y"] [Value.raw (JsVal.num 2)]).text
          ++ " C" := by
  have h1 : (sql ["A ", " B ", " C"]
      [Value.raw (JsVal.num 1),
       Value.subquery ["X ", " Y"] [Value.raw (JsVal.num 2)]]).text
    = "A $1 B X $2 Y C" := by
    simp [sql, sqlInner, sqlLoop, phString, String.join]
    rfl
  have h2 : (sql ["X ", " Y"] [Value.raw (JsVal.num 2)]).text
    = "X $1 Y" := by
    simp [sql, sqlInner, sqlLoop, phString, String.join]
    rfl
  refine ⟨h1, h2, ?_⟩
  rw [h1, h2]
  decide

/-- C2 (amended): splicing a previously composed query `inner = sql ips ivs`
into an outer template produces: text equal to the outer text with the
re-expansion of `inner` substituted at the splice site, where the
re-expansion continues the outer placeholder counter (no placeholder is
allocated at the splice site itself); and values equal to the interleaving
of `inner`'s own values, unchanged and in their original relative order,
with the outer template's values, preserving left-to-right source order.
When no placeholder is allocated before the splice site, the re-expansion
coincides with `inner.text`, giving exact textual substitution. -/
theorem C2_amended (l0 : String) (ps1 : List String) (vs1 : List Value)
    (mid : String) (ps2 : List String) (vs2 : List Value)
    (ips : List String) (ivs : List Value)
    (h : ps1.length = vs1.length) :
    (sql (l0 :: ps1 ++ mid :: ps2)
        (vs1 ++ Value.subquery ips ivs :: vs2)).text
      = l0 ++ String.join (sqlLoop ps1 vs1 1).1
          ++ String.join (sqlInner ips ivs (sqlLoop ps1 vs1 1).2.2).1
          ++ mid
          ++ String.join (sqlLoop ps2 vs2
              (sqlInner ips ivs (sqlLoop ps1 vs1 1).2.2).2.2).1
    ∧ (sql (l0 :: ps1 ++ mid :: ps2)
        (vs1 ++ Value.subquery ips ivs :: vs2)).values
      = (sqlLoop ps1 vs1 1).2.1 ++ (sql ips ivs).values
          ++ (sqlLoop ps2 vs2
              (sqlInner ips ivs (sqlLoop ps1 vs1 1).2.2).2.2).2.1
    ∧ ((sqlLoop ps1 vs1 1).2.2 = 1 →
        String.join (sqlInner ips ivs (sqlLoop ps1 vs1 1).2.2).1
          = (sql ips ivs).text) := by
  have hsplit := sqlLoop_append ps1 vs1 (mid :: ps2)
    (Value.subquery ips ivs :: vs2) 1 h
  have htext : (sql (l0 :: ps1 ++ mid :: ps2)
      (vs1 ++ Value.subquery ips ivs :: vs2)).text
    = String.join (l0 :: (sqlLoop (ps1 ++ mid :: ps2)
        (vs1 ++ Value.subquery ips ivs :: vs2) 1).1) := by
    rfl
  have hvals : (sql (l0 :: ps1 ++ mid :: ps2)
      (vs1 ++ Value.subquery ips ivs :: vs2)).values
    = (sqlLoop (ps1 ++ mid :: ps2)
        (vs1 ++ Value.subquery ips ivs :: vs2) 1).2.1 := by
    rfl
  refine ⟨?_, ?_, ?_⟩
  · rw [htext, hsplit]
    simp only [sqlLoop, sqlInner, join_cons, join_append]
    simp [String.append_assoc]
  · rw [hvals, hsplit]
    simp only [sqlLoop, sqlInner]
    have hirr : (sqlLoop ips.tail ivs (sqlLoop ps1 vs1 1).2.2).2.1
        = (sqlLoop ips.tail ivs 1).2.1 :=
      sqlLoop_values_irrel ips.tail ivs _ 1
    rw [hirr]
    simp [sql, sqlInner]
  · intro hone
    rw [hone]
    rfl

/-- C2 witness: the amended theorem applied at the counterexample's input,
where one outer placeholder precedes the splice site. -/
theorem C2_witness :
    (sql ("A " :: [" B "] ++ " C" :: [])
        ([Value.raw (JsVal.num 1)]
          ++ Value.subquery ["X ", " Y"] [Value.raw (JsVal.num 2)] :: [])).text
      = "A " ++ String.join (sqlLoop [" B "] [Value.raw (JsVal.num 1)] 1).1
          ++ String.join (sqlInner ["X ", " Y"] [Value.raw (JsVal.num 2)]
              (sqlLoop [" B "] [Value.raw (JsVal.num 1)] 1).2.2).1
          ++ " C"
          ++ String.join (sqlLoop [] []
              (sqlInner ["X ", " Y"] [Value.raw (JsVal.num 2)]
                (sqlLoop [" B "] [Value.raw (JsVal.num 1)] 1).2.2).2.2).1
    ∧ (sql ("A " :: [" B "] ++ " C" :: [])
        ([Value.raw (JsVal.num 1)]
          ++ Value.subquery ["X ", " Y"] [Value.raw (JsVal.num 2)] :: [])).values
      = (sqlLoop [" B "] [Value.raw (JsVal.num 1)] 1).2.1
          ++ (sql ["X ", " Y"] [Value.raw (JsVal.num 2)]).values
          ++ (sqlLoop [] []
              (sqlInner ["X ", " Y"] [Value.raw (JsVal.num 2)]
                (sqlLoop [" B "] [Value.raw (JsVal.num 1)] 1).2.2).2.2).2.1
    ∧ ((sqlLoop [" B "] [Value.raw (JsVal.num 1)] 1).2.2 = 1 →
        String.join (sqlInner ["X ", " Y"] [Value.raw (JsVal.num 2)]
            (sqlLoop [" B "] [Value.raw (JsVal.num 1)] 1).2.2).1
          = (sql ["X ", " Y"] [Value.raw (JsVal.num 2)]).text) :=
  C2_amended "A " [" B "] [Value.raw (JsVal.num 1)] " C" [] []
    ["X ", " Y"] [Value.raw (JsVal.num 2)] (by decide)

/-! ### Execution entry points (src/queries.ts) -/

/-- Field metadata of a collaborator result (`fields: sequence of {name}`). -/
structure FieldInfo : Type where
  name : String

/-- The result returned by the `pg` collaborator's `query` method:
`rows`, `rowCount` (with `none` modelling the JavaScript `null`), and the
field metadata. -/
structure QueryResult : Type where
  rows : List JsVal
  rowCount : Option Int
  fields : List FieldInfo

/-- An argument passed where a query is expected: a genuine `SqlQuery`
instance produced by the composer, a plain string, or an ad-hoc
`{text, values}` object. -/
inductive Arg : Type where
  | query : SqlQuery → Arg
  | str : String → Arg
  | obj : String → List JsVal → Arg

/-- Whether an argument is a genuine composed query (the
`sql instanceof SqlQuery` check of `send`). -/
def isComposedQuery : Arg → Bool
  | Arg.query _ => true
  | _ => false

/-- The errors raised by the execution entry points: the `TypeError` of the
`send` guard and `ResultError` (src/errors.ts), which carries the offending
query. -/
inductive PossuErr : Type where
  | typeError : String → PossuErr
  | resultError : String → SqlQuery → PossuErr

/-- The message of the `send` guard's `TypeError`. -/
def sendGuardMessage : String :=
  "The query was not constructed with the `sql` tagged template literal"

/-- `send` (src/queries.ts, lines 156-164): checks
`sql instanceof SqlQuery` and only then delegates to the collaborator's
`query` method.  The collaborator is modelled as a function from the query
to its result; the second component logs the collaborator calls performed.
The executed query is returned alongside the result because the callers
have it in scope (their `sql` argument) and attach it to `ResultError`s. -/
def send (connQuery : SqlQuery → QueryResult) (arg : Arg) :
    Except PossuErr (QueryResult × SqlQuery) × List SqlQuery :=
  match arg with
  | Arg.query q => (Except.ok (connQuery q, q), [q])
  | _ => (Except.error (PossuErr.typeError sendGuardMessage), [])

/-- JavaScript field access `row[name]` used by the single-column
unwrapping: the named field of a row object, `undefined` otherwise. -/
def getField (row : JsVal) (name : String) : JsVal :=
  match row with
  | JsVal.obj fields => lookupField fields name
  | _ => JsVal.undef

/-- `mapField` (src/util.ts, lines 31-44): apply the row parser to the
named field of every row. -/
def mapField (name : String) (rowParser : JsVal → JsVal)
    (rows : List JsVal) : List JsVal :=
  rows.map fun row => rowParser (getField row name)

/-- Decimal rendering of a `rowCount` in an error message; the JavaScript
template literal renders `null` as `"null"`. -/
def rowCountRepr : Option Int → String
  | none => "null"
  | some n => Int.repr n

/-- `query` (src/queries.ts, lines 17-29).  The source skips the `map`
when the parser is the default identity `coerce` (`rowParser === coerce`);
that shortcut is observationally the identity map and is modelled as the
map itself. -/
def queryE (connQuery : SqlQuery → QueryResult) (arg : Arg)
    (rowParser : JsVal → JsVal) :
    Except PossuErr (List JsVal) × List SqlQuery :=
  match send connQuery arg with
  | (Except.error e, calls) => (Except.error e, calls)
  | (Except.ok (res, _), calls) =>
    if res.fields.length ≠ 1 then
      (Except.ok (res.rows.map rowParser), calls)
    else
      (Except.ok (mapField (res.fields.headD ⟨""⟩).name rowParser res.rows),
        calls)

/-- `queryOne` (src/queries.ts, lines 40-58). -/
def queryOneE (connQuery : SqlQuery → QueryResult) (arg : Arg)
    (rowParser : JsVal → JsVal) :
    Except PossuErr JsVal × List SqlQuery :=
  match send connQuery arg with
  | (Except.error e, calls) => (Except.error e, calls)
  | (Except.ok (res, q), calls) =>
    if res.rows.length ≠ 1 then
      (Except.error (PossuErr.resultError
        ("Expected query to return exactly 1 row, got "
          ++ Nat.repr res.rows.length ++ " rows") q), calls)
    else if res.fields.length ≠ 1 then
      (Except.ok (rowParser (res.rows.headD JsVal.undef)), calls)
    else
      (Except.ok (rowParser (getField (res.rows.headD JsVal.undef)
        (res.fields.headD ⟨""⟩).name)), calls)

/-- `queryMaybeOne` (src/queries.ts, lines 69-89): `undefined` is the
absent sentinel returned for zero rows. -/
def queryMaybeOneE (connQuery : SqlQuery → QueryResult) (arg : Arg)
    (rowParser : JsVal → JsVal) :
    Except PossuErr JsVal × List SqlQuery :=
  match send connQuery arg with
  | (Except.error e, calls) => (Except.error e, calls)
  | (Except.ok (res, q), calls) =>
    if res.rows.length > 1 then
      (Except.error (PossuErr.resultError
        ("Expected query to return 0–1 rows, got "
          ++ Nat.repr res.rows.length ++ " rows") q), calls)
    else if res.rows.length = 0 then
      (Except.ok JsVal.undef, calls)
    else if res.fields.length ≠ 1 then
      (Except.ok (rowParser (res.rows.headD JsVal.undef)), calls)
    else
      (Except.ok (rowParser (getField (res.rows.headD JsVal.undef)
        (res.fields.headD ⟨""⟩).name)), calls)

/-- `execute` (src/queries.ts, lines 98-104): returns `rowCount` from the
collaborator result unchanged — the return type `Option Int` records that a
SQL-null `rowCount` (`none`) is passed through as-is by the source. -/
def executeE (connQuery : SqlQuery → QueryResult) (arg : Arg) :
    Except PossuErr (Option Int) × List SqlQuery :=
  match send connQuery arg with
  | (Except.error e, calls) => (Except.error e, calls)
  | (Except.ok (res, _), calls) => (Except.ok res.rowCount, calls)

/-- `executeOne` (src/queries.ts, lines 116-129): `rowCount !== 1` throws;
in JavaScript a `null` row count is `!== 1` and therefore throws. -/
def executeOneE (connQuery : SqlQuery → QueryResult) (arg : Arg) :
    Except PossuErr (Option Int) × List SqlQuery :=
  match send connQuery arg with
  | (Except.error e, calls) => (Except.error e, calls)
  | (Except.ok (res, q), calls) =>
    if res.rowCount ≠ some 1 then
      (Except.error (PossuErr.resultError
        ("Expected query to modify exactly 1 row, but it modified "
          ++ rowCountRepr res.rowCount ++ " rows") q), calls)
    else (Except.ok res.rowCount, calls)

/-- The JavaScript comparison `rowCount > 1`: `null > 1` is `false`. -/
def jsGtOne : Option Int → Bool
  | none => false
  | some n => 1 < n

/-- `executeMaybeOne` (src/queries.ts, lines 141-154). -/
def executeMaybeOneE (connQuery : SqlQuery → QueryResult) (arg : Arg) :
    Except PossuErr (Option Int) × List SqlQuery :=
  match send connQuery arg with
  | (Except.error e, calls) => (Except.error e, calls)
  | (Except.ok (res, q), calls) =>
    if jsGtOne res.rowCount then
      (Except.error (PossuErr.resultError
        ("Expected query to modify 0–1 rows, but it modified "
          ++ rowCountRepr res.rowCount ++ " rows") q), calls)
    else (Except.ok res.rowCount, calls)

/-- C3: passing anything that is not a composed `SqlQuery` (a plain string
or an ad-hoc `{text, values}` object) to any of the six execution entry
points yields the `send` guard's `TypeError` and performs no collaborator
call at all. -/
theorem C3_theorem (connQuery : SqlQuery → QueryResult)
    (rowParser : JsVal → JsVal) (arg : Arg)
    (h : isComposedQuery arg = false) :
    queryE connQuery arg rowParser
      = (Except.error (PossuErr.typeError sendGuardMessage), [])
    ∧ queryOneE connQuery arg rowParser
      = (Except.error (PossuErr.typeError sendGuardMessage), [])
    ∧ queryMaybeOneE connQuery arg rowParser
      = (Except.error (PossuErr.typeError sendGuardMessage), [])
    ∧ executeE connQuery arg
      = (Except.error (PossuErr.typeError sendGuardMessage), [])
    ∧ executeOneE connQuery arg
      = (Except.error (PossuErr.typeError sendGuardMessage), [])
    ∧ executeMaybeOneE connQuery arg
      = (Except.error (PossuErr.typeError sendGuardMessage), []) := by
  cases arg with
  | query q => simp [isComposedQuery] at h
  | str s =>
    exact ⟨rfl, rfl, rfl, rfl, rfl, rfl⟩
  | obj t v =>
    exact ⟨rfl, rfl, rfl, rfl, rfl, rfl⟩

/-- C3 witness: the guard theorem applied to a plain string argument. -/
theorem C3_witness :
    queryE (fun _ => ⟨[], none, []⟩) (Arg.str "SELECT 1") id
      = (Except.error (PossuErr.typeError sendGuardMessage), [])
    ∧ queryOneE (fun _ => ⟨[], none, []⟩) (Arg.str "SELECT 1") id
      = (Except.error (PossuErr.typeError sendGuardMessage), [])
    ∧ queryMaybeOneE (fun _ => ⟨[], none, []⟩) (Arg.str "SELECT 1") id
      = (Except.error (PossuErr.typeError sendGuardMessage), [])
    ∧ executeE (fun _ => ⟨[], none, []⟩) (Arg.str "SELECT 1")
      = (Except.error (PossuErr.typeError sendGuardMessage), [])
    ∧ executeOneE (fun _ => ⟨[], none, []⟩) (Arg.str "SELECT 1")
      = (Except.error (PossuErr.typeError sendGuardMessage), [])
    ∧ executeMaybeOneE (fun _ => ⟨[], none, []⟩) (Arg.str "SELECT 1")
      = (Except.error (PossuErr.typeError sendGuardMessage), []) :=
  C3_theorem (fun _ => ⟨[], none, []⟩) id (Arg.str "SELECT 1") rfl

/-- C7: evaluation of the code at the failing input.  When the collaborator
reports `rowCount = null` (e.g. for `LOCK TABLE`), `execute` and
`executeMaybeOne` return the null row count unchanged (`none`), not the
integer `0` that the claim — and the repository's own tests
(`returns 0 if the underlying rowCount is null`) — require. -/
theorem C7_code_behavior :
    (executeE (fun _ => ⟨[], none, []⟩)
        (Arg.query (sql ["LOCK TABLE users"] []))).1 = Except.ok none
    ∧ (executeMaybeOneE (fun _ => ⟨[], none, []⟩)
        (Arg.query (sql ["LOCK TABLE users"] []))).1 = Except.ok none
    ∧ (Except.ok none : Except PossuErr (Option Int))
        ≠ Except.ok (some 0) := by
  refine ⟨rfl, rfl, ?_⟩
  intro h
  simp at h

/-- The single-column unwrapping applied to one row, as shared by
`queryOne` and `queryMaybeOne`: the scalar field value if the result has
exactly one field, the whole row object otherwise, then the row parser. -/
def shapeRow (res : QueryResult) (rowParser : JsVal → JsVal)
    (row : JsVal) : JsVal :=
  if res.fields.length ≠ 1 then rowParser row
  else rowParser (getField row (res.fields.headD ⟨""⟩).name)

/-- C8: row-count contracts of `queryOne` and `queryMaybeOne`: with 0 rows
`queryOne` raises a `ResultError` carrying the offending query and
`queryMaybeOne` returns the absent sentinel `undefined`; with 2 or more
rows both raise `ResultError` carrying the query; with exactly 1 row both
return the (possibly single-column-unwrapped) row. -/
theorem C8_theorem (res : QueryResult) (q : SqlQuery) (p : JsVal → JsVal) :
    match res.rows with
    | [] =>
        queryOneE (fun _ => res) (Arg.query q) p
          = (Except.error (PossuErr.resultError
              ("Expected query to return exactly 1 row, got "
                ++ Nat.repr 0 ++ " rows") q), [q])
        ∧ queryMaybeOneE (fun _ => res) (Arg.query q) p
          = (Except.ok JsVal.undef, [q])
    | [r] =>
        queryOneE (fun _ => res) (Arg.query q) p
          = (Except.ok (shapeRow res p r), [q])
        ∧ queryMaybeOneE (fun _ => res) (Arg.query q) p
          = (Except.ok (shapeRow res p r), [q])
    | _ :: rest =>
        queryOneE (fun _ => res) (Arg.query q) p
          = (Except.error (PossuErr.resultError
              ("Expected query to return exactly 1 row, got "
                ++ Nat.repr (rest.length + 1) ++ " rows") q), [q])
        ∧ queryMaybeOneE (fun _ => res) (Arg.query q) p
          = (Except.error (PossuErr.resultError
              ("Expected query to return 0–1 rows, got "
                ++ Nat.repr (rest.length + 1) ++ " rows") q), [q]) := by
  obtain ⟨rows, rc, fields⟩ := res
  cases rows with
  | nil =>
    constructor <;> rfl
  | cons r rest =>
    cases rest with
    | nil =>
      constructor <;>
        simp [queryOneE, queryMaybeOneE, send, shapeRow] <;>
        split <;> simp_all
    | cons r2 rest2 =>
      constructor <;>
        simp [queryOneE, queryMaybeOneE, send]

/-- C9: single-column unwrapping.  When the result metadata reports exactly
one field, every returned row — across `query`, `queryOne` and
`queryMaybeOne` — is that field's scalar value rather than the row object,
and the caller-supplied row transform is applied to the scalar; with any
other field count the transform is applied to the whole row object. -/
theorem C9_theorem (rows : List JsVal) (rc : Option Int) (f : FieldInfo)
    (q : SqlQuery) (p : JsVal → JsVal) :
    queryE (fun _ => ⟨rows, rc, [f]⟩) (Arg.query q) p
      = (Except.ok (rows.map fun r => p (getField r f.name)), [q])
    ∧ (∀ r : JsVal,
        queryOneE (fun _ => ⟨[r], rc, [f]⟩) (Arg.query q) p
          = (Except.ok (p (getField r f.name)), [q])
        ∧ queryMaybeOneE (fun _ => ⟨[r], rc, [f]⟩) (Arg.query q) p
          = (Except.ok (p (getField r f.name)), [q]))
    ∧ (∀ (f2 : FieldInfo) (fs : List FieldInfo),
        queryE (fun _ => ⟨rows, rc, f :: f2 :: fs⟩) (Arg.query q) p
          = (Except.ok (rows.map p), [q]))
    ∧ queryE (fun _ => ⟨rows, rc, []⟩) (Arg.query q) p
      = (Except.ok (rows.map p), [q]) := by
  refine ⟨?_, ?_, ?_, ?_⟩
  · simp [queryE, send, mapField]
  · intro r
    constructor <;> rfl
  · intro f2 fs
    simp [queryE, send]
  · simp [queryE, send]

/-- C10: a values list whose records may lack some of the keys still
composes: `sql.values` accepts it (its validation never inspects
per-record keys), and the expansion allocates one fresh placeholder per
(record, key) pair — `objs.length * keys.length` in total — pushing
JavaScript's `undefined` (`object[key]` for a missing key) as the bound
parameter, uniformly for every record and key. -/
theorem C10_theorem (objs : List (List (String × JsVal)))
    (keys : List String) (idx : Nat)
    (h1 : objs ≠ []) (h2 : keys ≠ []) :
    sqlValues objs keys = Except.ok (objs, keys)
    ∧ (appendSqlValuesList objs keys idx).2.1
        = objs.flatMap (fun o => keys.map fun k => lookupField o k)
    ∧ (appendSqlValuesList objs keys idx).2.2
        = idx + objs.length * keys.length := by
  refine ⟨?_, (appendSqlValuesList_spec objs keys idx).2.1,
    (appendSqlValuesList_spec objs keys idx).1⟩
  have hobjs : objs.isEmpty = false := by
    cases objs with
    | nil => simp at h1
    | cons o t => rfl
  have hkeys : keys.isEmpty = false := by
    cases keys with
    | nil => simp at h2
    | cons k t => rfl
  simp [sqlValues, hobjs, hkeys]

/-- C10 witness: a record missing the inferred `age` key still composes,
binding `undefined` for the missing pair. -/
theorem C10_witness :
    sqlValues [[("name", JsVal.str "Iiris"), ("age", JsVal.num 5)],
        [("name", JsVal.str "Napoleon")]] ["name", "age"]
      = Except.ok ([[("name", JsVal.str "Iiris"), ("age", JsVal.num 5)],
        [("name", JsVal.str "Napoleon")]], ["name", "age"])
    ∧ (appendSqlValuesList [[("name", JsVal.str "Iiris"), ("age", JsVal.num 5)],
        [("name", JsVal.str "Napoleon")]] ["name", "age"] 1).2.1
      = [[("name", JsVal.str "Iiris"), ("age", JsVal.num 5)],
        [("name", JsVal.str "Napoleon")]].flatMap
          (fun o => ["name", "age"].map fun k => lookupField o k)
    ∧ (appendSqlValuesList [[("name", JsVal.str "Iiris"), ("age", JsVal.num 5)],
        [("name", JsVal.str "Napoleon")]] ["name", "age"] 1).2.2
      = 1 + [[("name", JsVal.str "Iiris"), ("age", JsVal.num 5)],
        [("name", JsVal.str "Napoleon")]].length * ["name", "age"].length :=
  C10_theorem _ _ 1 (by simp) (by simp)

/-! ### Transactions and savepoints (src/transaction.ts) -/

/-- PostgreSQL error code for a serialization failure. -/
def serializationFailure : String := "40001"

/-- PostgreSQL error code for a detected deadlock. -/
def deadlockDetected : String := "40P01"

/-- PostgreSQL error code for `no active SQL transaction`. -/
def noActiveSqlTransaction : String := "25P01"

/-- A `pg.DatabaseError` as far as the library inspects it: its
machine-readable `code`. -/
structure DatabaseError : Type where
  code : String

/-- An error escaping a unit of work: a database error, or anything else. -/
inductive TxErr : Type where
  | db : DatabaseError → TxErr
  | other : TxErr

/-- `isRetryableError` (src/transaction.ts, lines 394-401). -/
def isRetryableError : TxErr → Bool
  | TxErr.db e => e.code == serializationFailure || e.code == deadlockDetected
  | TxErr.other => false

/-- `isNoActiveTransactionError` (src/transaction.ts, lines 403-405). -/
def isNoActiveTransactionError : TxErr → Bool
  | TxErr.db e => e.code == noActiveSqlTransaction
  | TxErr.other => false

/-- `getMaxRetries` (src/transaction.ts, lines 358-366): `undefined`
defaults to 2; a negative count is a `TypeError` (the `Number.isInteger`
check is modelled by the `Int` input type). -/
def getMaxRetries : Option Int → Except PossuErr Nat
  | none => Except.ok 2
  | some m =>
    if m < 0 then
      Except.error (PossuErr.typeError "maxRetries must be a non-negative integer!")
    else Except.ok m.toNat

/-- An observable interaction of the retry loop with the connection: an
SQL statement issued on it, or the `k`-th invocation of the unit of work. -/
inductive TxStmt : Type where
  | stmt : String → TxStmt
  | work : Nat → TxStmt

/-- Whether a logged interaction is a unit-of-work invocation. -/
def isWork : TxStmt → Bool
  | TxStmt.work _ => true
  | _ => false

/-- `performTransaction` (src/transaction.ts, lines 368-392): the retry
loop.  The effectful unit of work is modelled by the outcomes of its
successive invocations: `queries k` is the result of invocation number `k`
(counting from 0) on this connection.  Each iteration issues the `BEGIN`
statement, invokes the unit of work, then `COMMIT` on success; on failure
it issues `ROLLBACK` and, when retry budget remains and `shouldRetry`
accepts the error, decrements the budget and loops, otherwise rethrows.
Returns the interaction log and the final outcome. -/
def performTransaction {α : Type} (begin : String)
    (queries : Nat → Except TxErr α) (shouldRetry : TxErr → Bool)
    (attempt maxRetries : Nat) : List TxStmt × Except TxErr α :=
  match queries attempt with
  | Except.ok a =>
    ([TxStmt.stmt begin, TxStmt.work attempt, TxStmt.stmt "COMMIT"],
      Except.ok a)
  | Except.error e =>
    if h : 0 < maxRetries ∧ shouldRetry e = true then
      let r := performTransaction begin queries shouldRetry (attempt + 1)
        (maxRetries - 1)
      (TxStmt.stmt begin :: TxStmt.work attempt
          :: TxStmt.stmt "ROLLBACK" :: r.1, r.2)
    else
      ([TxStmt.stmt begin, TxStmt.work attempt, TxStmt.stmt "ROLLBACK"],
        Except.error e)
  termination_by maxRetries
  decreasing_by omega

set_option maxRecDepth 4000 in
/-- C4: when every invocation of the unit of work fails with an error the
retry predicate accepts, `performTransaction` with budget `maxRetries = m`
invokes the unit of work exactly `m + 1` times — `BEGIN` before each
attempt and `ROLLBACK` after each failure — and propagates the (last)
retryable error; and `getMaxRetries` maps the non-negative integer `m` to
exactly that budget.  With `m = 0` the unit of work runs exactly once. -/
theorem C4_theorem (α : Type) (m : Nat) (begin : String) (errs : Nat → TxErr)
    (sr : TxErr → Bool) (hsr : ∀ k, sr (errs k) = true) :
    performTransaction begin
        (fun k => (Except.error (errs k) : Except TxErr α)) sr 0 m
      = ((List.range (m + 1)).flatMap fun k =>
          [TxStmt.stmt begin, TxStmt.work k, TxStmt.stmt "ROLLBACK"],
         Except.error (errs m))
    ∧ ((performTransaction begin
          (fun k => (Except.error (errs k) : Except TxErr α)) sr 0 m).1.filter
            isWork).length = m + 1
    ∧ getMaxRetries (some (m : Int)) = Except.ok m := by
  have key : ∀ (mr a : Nat),
      performTransaction begin
          (fun k => (Except.error (errs k) : Except TxErr α)) sr a mr
        = ((List.range' a (mr + 1)).flatMap fun k =>
            [TxStmt.stmt begin, TxStmt.work k, TxStmt.stmt "ROLLBACK"],
           Except.error (errs (a + mr))) := by
    intro mr
    induction mr with
    | zero =>
      intro a
      rw [performTransaction]
      simp [hsr a, List.range'_succ]
    | succ mr ih =>
      intro a
      have harith : a + 1 + mr = a + (mr + 1) := by omega
      rw [performTransaction]
      simp only [hsr a, Nat.zero_lt_succ, and_self, dite_true, Nat.add_sub_cancel]
      rw [ih (a + 1)]
      simp [List.range'_succ, harith]
  have hwork : ∀ (l : List Nat),
      ((l.flatMap fun k =>
          [TxStmt.stmt begin, TxStmt.work k, TxStmt.stmt "ROLLBACK"]).filter
        isWork).length = l.length := by
    intro l
    induction l with
    | nil => rfl
    | cons a t ih =>
      simp only [List.flatMap_cons, List.filter_append, List.length_append, ih]
      simp [isWork, Nat.add_comm]
  refine ⟨?_, ?_, ?_⟩
  · rw [key m 0, List.range_eq_range']
    simp
  · rw [key m 0]
    simp only [hwork]
    simp
  · have hnn : ¬((m : Int) < 0) := Int.not_lt.mpr (Int.natCast_nonneg m)
    simp [getMaxRetries, hnn]

/-- C4 witness: with `maxRetries = 0` and a unit of work that always fails
with the retryable serialization-failure code `40001`, the unit of work is
invoked exactly once and the error propagates. -/
theorem C4_witness :
    performTransaction "BEGIN"
        (fun _ => (Except.error (TxErr.db ⟨"40001"⟩) : Except TxErr Unit))
        isRetryableError 0 0
      = ((List.range (0 + 1)).flatMap fun k =>
          [TxStmt.stmt "BEGIN", TxStmt.work k, TxStmt.stmt "ROLLBACK"],
         Except.error (TxErr.db ⟨"40001"⟩))
    ∧ ((performTransaction "BEGIN"
          (fun _ => (Except.error (TxErr.db ⟨"40001"⟩) : Except TxErr Unit))
          isRetryableError 0 0).1.filter isWork).length = 0 + 1
    ∧ getMaxRetries (some ((0 : Nat) : Int)) = Except.ok 0 :=
  C4_theorem Unit 0 "BEGIN" (fun _ => TxErr.db ⟨"40001"⟩) isRetryableError
    (fun _ => rfl)

/-- An out-of-band occurrence while `withTransaction` waits for the main
execution path: an `error` event on the connection, or the settlement of
`performTransaction`'s promise. -/
inductive TxOcc (E : Type) : Type where
  | errEvent : E → TxOcc E
  | settle : TxOcc E

/-- The executor state of `withTransaction` (src/transaction.ts, lines
287-308): the `errored` flag, whether the once-`error` listener is still
attached, the `release` calls performed so far (`true` records
`tx.release(true)`, discarding the connection; `false` a plain
`tx.release()`), and the promise settlement (a promise settles once). -/
structure WtState (E R : Type) : Type where
  errored : Bool
  listening : Bool
  releases : List Bool
  settled : Option (Except E R)

/-- The state before any occurrence: listener attached, nothing settled. -/
def initialWtState (E R : Type) : WtState E R :=
  ⟨false, true, [], none⟩

/-- A promise settles only once; later settlements are ignored. -/
def settleWith (s : Option (Except E R)) (x : Except E R) :
    Option (Except E R) :=
  match s with
  | some y => some y
  | none => some x

/-- `onError` (src/transaction.ts, lines 289-296): if `errored`, return;
otherwise set the flag, remove the listener, `release(true)` and reject. -/
def onError (e : E) (s : WtState E R) : WtState E R :=
  if s.errored then s
  else ⟨true, false, s.releases ++ [true],
    settleWith s.settled (Except.error e)⟩

/-- `onResult` (src/transaction.ts, lines 297-301): remove the listener,
`release()` and resolve — with no `errored` guard. -/
def onResult (r : R) (s : WtState E R) : WtState E R :=
  ⟨s.errored, false, s.releases ++ [false],
    settleWith s.settled (Except.ok r)⟩

/-- Delivering one occurrence: an `error` event reaches `onError` only
while the once-listener is attached (and detaches it); the settlement of
the main path runs `onResult` on success and `onError` on failure (the
`.then(onResult).catch(onError)` chain). -/
def deliver (mo : Except E R) (s : WtState E R) : TxOcc E → WtState E R
  | TxOcc.errEvent e =>
    if s.listening then onError e ⟨s.errored, false, s.releases, s.settled⟩
    else s
  | TxOcc.settle =>
    match mo with
    | Except.ok r => onResult r s
    | Except.error e => onError e s

/-- The release/settlement behavior of `withTransaction` over a sequence
of occurrences, given the main path's outcome `mo`. -/
def runWithTransaction (mo : Except E R) (occs : List (TxOcc E)) :
    WtState E R :=
  occs.foldl (deliver mo) (initialWtState E R)

/-- C5: evaluation of the code at the failing interleaving.  When an
out-of-band `error` event fires before the main execution path settles
successfully, `release` is called twice: `onError` performs
`release(true)` (guarded by the `errored` flag) and the unguarded
`onResult` then performs a second, plain `release()` — although the
source's own comment says the client must be released only once.  In the
other orders — settlement first, or a failing main path — release happens
exactly once. -/
theorem C5_code_behavior :
    (runWithTransaction (Except.ok (0 : Nat))
        [TxOcc.errEvent "boom", TxOcc.settle]).releases = [true, false]
    ∧ (runWithTransaction (Except.ok (0 : Nat))
        [TxOcc.settle, TxOcc.errEvent "boom"]).releases = [false]
    ∧ (runWithTransaction (Except.error "boom" : Except String Nat)
        [TxOcc.errEvent "x", TxOcc.settle]).releases = [true]
    ∧ (runWithTransaction (Except.error "boom" : Except String Nat)
        [TxOcc.settle, TxOcc.errEvent "x"]).releases = [true] := by
  exact ⟨rfl, rfl, rfl, rfl⟩

/-- The fixed savepoint identifier used by `withSavepoint`
(src/transaction.ts, lines 422-440). -/
def savepointName : String := "possu_savepoint"

/-- `withSavepoint` (src/transaction.ts, lines 422-440): issue
`SAVEPOINT possu_savepoint`, run the unit of work (modelled by the
statements it issues and its outcome), then `RELEASE SAVEPOINT` on
success; on failure, `ROLLBACK TO SAVEPOINT ...; RELEASE SAVEPOINT ...`
unless the failure is `no active SQL transaction` (code 25P01), and
rethrow the original error.  Returns the statements issued on the
connection and the outcome. -/
def withSavepoint {α : Type} (body : List String × Except TxErr α) :
    List String × Except TxErr α :=
  match body with
  | (stmts, Except.ok a) =>
    (("SAVEPOINT " ++ savepointName) :: stmts
        ++ ["RELEASE SAVEPOINT " ++ savepointName], Except.ok a)
  | (stmts, Except.error e) =>
    if isNoActiveTransactionError e then
      (("SAVEPOINT " ++ savepointName) :: stmts, Except.error e)
    else
      (("SAVEPOINT " ++ savepointName) :: stmts
          ++ ["ROLLBACK TO SAVEPOINT " ++ savepointName
              ++ "; RELEASE SAVEPOINT " ++ savepointName],
        Except.error e)

/-- C6 counterexample: in a nested pair of `withSavepoint` invocations the
inner invocation issues exactly the same `SAVEPOINT possu_savepoint`
statement as the outer one — the savepoint identifier is a single fixed
constant, not distinct per invocation. -/
theorem C6_counterexample :
    (withSavepoint (withSavepoint
        (([], Except.ok 0) : List String × Except TxErr Nat))).1.head?
      = some ("SAVEPOINT " ++ savepointName)
    ∧ ((withSavepoint (withSavepoint
        (([], Except.ok 0) : List String × Except TxErr Nat))).1)[1]?
      = some ("SAVEPOINT " ++ savepointName)
    ∧ (withSavepoint
        (([], Except.ok 0) : List String × Except TxErr Nat)).1.head?
      = some ("SAVEPOINT " ++ savepointName) := by
  exact ⟨rfl, rfl, rfl⟩

/-- C6 (amended): every `withSavepoint` invocation — outer or nested, for
every body and outcome — opens with the statement
`SAVEPOINT possu_savepoint` built from the single fixed identifier
`possu_savepoint`; nested invocations therefore reuse the same identifier
(relying on PostgreSQL's stacking of same-named savepoints) rather than
using distinct per-call identifiers. -/
theorem C6_amended (α : Type) (stmts : List String) (r : Except TxErr α) :
    (withSavepoint (stmts, r)).1.head?
      = some ("SAVEPOINT " ++ savepointName)
    ∧ (withSavepoint (withSavepoint (stmts, r))).1.head?
      = some ("SAVEPOINT " ++ savepointName)
    ∧ ((withSavepoint (withSavepoint (stmts, r))).1)[1]?
      = some ("SAVEPOINT " ++ savepointName) := by
  cases r with
  | ok a => refine ⟨?_, ?_, ?_⟩ <;> simp [withSavepoint]
  | error e =>
    by_cases h : isNoActiveTransactionError e = true
    · refine ⟨?_, ?_, ?_⟩ <;> simp [withSavepoint, h]
    · rw [Bool.not_eq_true] at h
      refine ⟨?_, ?_, ?_⟩ <;> simp [withSavepoint, h]

end Possu
